/-
Verification of the HSM Safety Performance Function (SPF) prediction engine
of the TrafficFLowRiskBenchmark repository (package `highd_hsm`).

The development shallowly embeds the core modules:
  * `highd_hsm/hsm/spf.py`  — `SpfCoefficient`, `SeverityProfile`, `FreewaySpf`
  * `highd_hsm/config.py`   — `HsmConfig`, `SpfOverdispersionConfig`

Python floats are modelled by real numbers; CSV cells are modelled by a
small inductive type recording whether the cell is missing, empty,
malformed (rejected by Python `float`) or carries a numeric value.
Python dicts are modelled by association lists.
-/
import Mathlib

noncomputable section

namespace HighdHsm

/-! ## CSV cells and coercion (loader layer)

A cell of a CSV row, as seen by the loaders in `FreewaySpf.from_files` and
`SeverityProfile.from_row`.  `missing` models an absent column,
`empty` the string `""`, `malformed` a non-empty string rejected by
`float(...)`, and `num v` a string parsed to the value `v`. -/
inductive Cell where
  | missing : Cell
  | empty : Cell
  | malformed : Cell
  | num : ℝ → Cell

/-- Embeds `SeverityProfile._coerce_float(value, default)`: missing, empty
and malformed values (including the literal strings `nan`/`NaN`) all fall
back to the default. -/
def coerceFloat (cell : Cell) (default : ℝ) : ℝ :=
  match cell with
  | Cell.num v => v
  | _ => default

/-- Parse of a required numeric cell in a coefficient row: a missing key
raises `KeyError`, an empty or malformed string raises `ValueError`, so
only `num v` succeeds. -/
def reqFloat (cell : Cell) : Option ℝ :=
  match cell with
  | Cell.num v => some v
  | _ => none

/-- Parse of the `lanes_exponent` cell, embedding
`float(row.get("lanes_exponent", 0.0) or 0.0)`: a missing key or an empty
string yields `0.0`; a malformed non-empty string still raises. -/
def lanesFloat (cell : Cell) : Option ℝ :=
  match cell with
  | Cell.missing => some 0
  | Cell.empty => some 0
  | Cell.malformed => none
  | Cell.num v => some v

/-- Embeds Python `value.strip().lower()` applied to string keys. -/
def normKey (s : String) : String := s.trim.toLower

/-- Embeds Python `dict.get` on a string-keyed dict modelled as an
association list (keys unique in the intended use; first match wins). -/
def dictGet {α : Type} : List (String × α) → String → Option α
  | [], _ => none
  | p :: rest, key => if p.1 = key then some p.2 else dictGet rest key

/-! ## Configuration (`config.py`) -/

/-- Embeds `SpfOverdispersionConfig` with defaults `alpha=0.4`, `beta=-0.5`. -/
structure SpfOverdispersionConfig where
  alpha : ℝ := 0.4
  beta : ℝ := -0.5

/-- Embeds `SpfOverdispersionConfig.k_for_length`. -/
def SpfOverdispersionConfig.k_for_length (cfg : SpfOverdispersionConfig)
    (length_miles : ℝ) : ℝ :=
  cfg.alpha * (max length_miles 0.001) ^ cfg.beta

/-- Embeds `HsmConfig`; `cmf_overrides` is the dict of per-collision-type
crash-modification factors. -/
structure HsmConfig where
  calibration_factor : ℝ := 1
  default_cmf : ℝ := 1
  cmf_overrides : List (String × ℝ) := []
  overdispersion : SpfOverdispersionConfig := {}

/-- Embeds `HsmConfig.cmf_for_key`:
`self.cmf_overrides.get(key, self.default_cmf)`. -/
def HsmConfig.cmf_for_key (cfg : HsmConfig) (key : String) : ℝ :=
  match dictGet cfg.cmf_overrides key with
  | some v => v
  | none => cfg.default_cmf

/-! ## SPF coefficients (`spf.py`, `SpfCoefficient`) -/

/-- Embeds the `SpfCoefficient` dataclass. -/
structure SpfCoefficient where
  facility : String
  area_type : String
  collision_type : String
  intercept : ℝ
  aadt_exponent : ℝ
  length_exponent : ℝ
  lanes_exponent : ℝ

/-- Embeds `SpfCoefficient.predict`: zero on any non-positive input,
otherwise the log-linear regression form. -/
def SpfCoefficient.predict (c : SpfCoefficient)
    (aadt length_miles lanes : ℝ) : ℝ :=
  if aadt ≤ 0 ∨ length_miles ≤ 0 ∨ lanes ≤ 0 then 0
  else
    Real.exp (c.intercept
      + c.aadt_exponent * Real.log aadt
      + c.length_exponent * Real.log length_miles
      + c.lanes_exponent * Real.log lanes)

/-- Embeds one entry of `directional_inputs`: the per-direction dict with
keys `lane_count`, `segment_length_miles`, `aadt` (defaults `0.0`). -/
structure DirectionalInput where
  lane_count : ℝ := 0
  segment_length_miles : ℝ := 0
  aadt : ℝ := 0

/-- Embeds the calibration step of `FreewaySpf.predict`:
`calibrated = base * config.calibration_factor * cmf`. -/
def calibratedCount (cfg : HsmConfig) (coef : SpfCoefficient)
    (collision : String) (d : DirectionalInput) : ℝ :=
  coef.predict d.aadt d.segment_length_miles d.lane_count
    * cfg.calibration_factor * cfg.cmf_for_key collision

/-! ## Claims about the SPF formula -/

/-- C1: with all three inputs positive, the base prediction is the
log-linear form `exp(intercept + a·ln aadt + l·ln length + n·ln lanes)`,
the calibrated count is the base times `calibration_factor` times the CMF
for the collision-type key, and that CMF is the override entry when one is
present and otherwise the configured default CMF. -/
theorem spf_formula_and_calibration (coef : SpfCoefficient) (cfg : HsmConfig)
    (key : String) (d : DirectionalInput)
    (ha : 0 < d.aadt) (hl : 0 < d.segment_length_miles)
    (hn : 0 < d.lane_count) :
    coef.predict d.aadt d.segment_length_miles d.lane_count =
      Real.exp (coef.intercept
        + coef.aadt_exponent * Real.log d.aadt
        + coef.length_exponent * Real.log d.segment_length_miles
        + coef.lanes_exponent * Real.log d.lane_count)
    ∧ calibratedCount cfg coef key d =
        coef.predict d.aadt d.segment_length_miles d.lane_count
          * cfg.calibration_factor * cfg.cmf_for_key key
    ∧ (∀ v : ℝ, dictGet cfg.cmf_overrides key = some v →
        cfg.cmf_for_key key = v)
    ∧ (dictGet cfg.cmf_overrides key = none →
        cfg.cmf_for_key key = cfg.default_cmf) := by
  refine ⟨?_, rfl, ?_, ?_⟩
  · rw [SpfCoefficient.predict, if_neg]
    push_neg
    exact ⟨ha, hl, hn⟩
  · intro v hv
    rw [HsmConfig.cmf_for_key, hv]
  · intro hv
    rw [HsmConfig.cmf_for_key, hv]

/-- Witness for C1 at concrete inputs. -/
theorem spf_formula_and_calibration_witness :
    (0:ℝ) < 50000 ∧
    SpfCoefficient.predict
        ⟨"freeway", "urban", "sv", -2, 0.5, 0.3, 0.1⟩ 50000 0.5 2 =
      Real.exp ((-2 : ℝ)
        + 0.5 * Real.log 50000 + 0.3 * Real.log 0.5 + 0.1 * Real.log 2) := by
  constructor
  · norm_num
  · have h := spf_formula_and_calibration
      ⟨"freeway", "urban", "sv", -2, 0.5, 0.3, 0.1⟩ {} "sv"
      ⟨2, 0.5, 50000⟩ (by norm_num) (by norm_num) (by norm_num)
    rw [h.1]

/-- C2: whenever any of aadt, segment length or lane count is ≤ 0,
`SpfCoefficient.predict` returns exactly `0.0`, whatever the coefficient
values are. -/
theorem predict_zero_of_nonpos (c : SpfCoefficient) (aadt length_miles lanes : ℝ)
    (h : aadt ≤ 0 ∨ length_miles ≤ 0 ∨ lanes ≤ 0) :
    c.predict aadt length_miles lanes = 0 := by
  rw [SpfCoefficient.predict, if_pos h]

/-- Witness for C2: zero aadt with otherwise arbitrary coefficients. -/
theorem predict_zero_of_nonpos_witness :
    (0:ℝ) ≤ 0 ∧
    SpfCoefficient.predict ⟨"f", "u", "sv", 3, -7, 2, 9⟩ 0 1 2 = 0 :=
  ⟨le_refl 0, predict_zero_of_nonpos ⟨"f", "u", "sv", 3, -7, 2, 9⟩ 0 1 2
    (Or.inl (le_refl 0))⟩

/-- C8: with `aadt_exponent > 0` and fixed positive length and lanes, the
base prediction is strictly increasing in aadt over positive aadt. -/
theorem predict_strictMono_in_aadt (c : SpfCoefficient)
    (hexp : 0 < c.aadt_exponent) (length_miles lanes a1 a2 : ℝ)
    (hl : 0 < length_miles) (hn : 0 < lanes)
    (h1 : 0 < a1) (h12 : a1 < a2) :
    c.predict a1 length_miles lanes < c.predict a2 length_miles lanes := by
  have h2 : 0 < a2 := lt_trans h1 h12
  rw [SpfCoefficient.predict, SpfCoefficient.predict, if_neg, if_neg]
  · apply Real.exp_lt_exp.mpr
    have hlog : Real.log a1 < Real.log a2 := Real.log_lt_log h1 h12
    have := mul_lt_mul_of_pos_left hlog hexp
    linarith
  · push_neg
    exact ⟨h2, hl, hn⟩
  · push_neg
    exact ⟨h1, hl, hn⟩

/-- Witness for C8 at concrete inputs. -/
theorem predict_strictMono_in_aadt_witness :
    (0:ℝ) < 1 ∧
    SpfCoefficient.predict ⟨"f", "u", "sv", 0, 1, 0, 0⟩ 1 1 1 <
      SpfCoefficient.predict ⟨"f", "u", "sv", 0, 1, 0, 0⟩ 2 1 1 :=
  ⟨by norm_num,
    predict_strictMono_in_aadt ⟨"f", "u", "sv", 0, 1, 0, 0⟩ (by norm_num)
      1 1 1 2 (by norm_num) (by norm_num) (by norm_num) (by norm_num)⟩

/-! ## Severity profiles (`spf.py`, `SeverityProfile`)

A five-entry KABCO map (dict keyed by the fixed levels `k a b c o`) is
modelled as a structure with five real fields. -/

structure Kabco where
  k : ℝ
  a : ℝ
  b : ℝ
  c : ℝ
  o : ℝ

/-- Sum of the five entries (`sum(shares.values())`). -/
def Kabco.sum (m : Kabco) : ℝ := m.k + m.a + m.b + m.c + m.o

/-- Entry-wise addition, used for the accumulation dicts in `predict`. -/
def Kabco.add (m n : Kabco) : Kabco :=
  ⟨m.k + n.k, m.a + n.a, m.b + n.b, m.c + n.c, m.o + n.o⟩

/-- The all-zero map (`{level: 0.0 for level in KABCO_LEVELS}`). -/
def Kabco.zero : Kabco := ⟨0, 0, 0, 0, 0⟩

/-- Entry-wise division by a scalar (`share / total`). -/
def Kabco.div (m : Kabco) (t : ℝ) : Kabco :=
  ⟨m.k / t, m.a / t, m.b / t, m.c / t, m.o / t⟩

/-- All five entries are non-negative. -/
def Kabco.Nonneg (m : Kabco) : Prop :=
  0 ≤ m.k ∧ 0 ≤ m.a ∧ 0 ≤ m.b ∧ 0 ≤ m.c ∧ 0 ≤ m.o

/-- Embeds the module constant `DEFAULT_KABCO_SHARES`. -/
def DEFAULT_KABCO_SHARES : Kabco := ⟨0.02, 0.06, 0.12, 0.20, 0.60⟩

/-- Embeds the module constant `DEFAULT_SEVERITY_COSTS`. -/
def DEFAULT_SEVERITY_COSTS : Kabco :=
  ⟨11000000, 1500000, 450000, 120000, 10000⟩

/-- Embeds the `SeverityProfile` dataclass. -/
structure SeverityProfile where
  facility : String
  area_type : String
  collision_type : String
  kabco_shares : Kabco
  fi_share : ℝ
  pdo_share : ℝ
  severity_costs : Kabco

/-- A severity CSV row as seen by `SeverityProfile.from_row` after cell
classification; absent columns default to `Cell.missing`. -/
structure SevRow where
  facility : String := ""
  area_type : String := ""
  collision_type : String := ""
  k_share : Cell := Cell.missing
  a_share : Cell := Cell.missing
  b_share : Cell := Cell.missing
  c_share : Cell := Cell.missing
  o_share : Cell := Cell.missing
  fi_share : Cell := Cell.missing
  pdo_share : Cell := Cell.missing
  k_cost : Cell := Cell.missing
  a_cost : Cell := Cell.missing
  b_cost : Cell := Cell.missing
  c_cost : Cell := Cell.missing
  o_cost : Cell := Cell.missing

/-- First normalization stage of `from_row`: if the raw share total is
≤ 0 the full default share set is restored, then every share is divided
by the (possibly reset) total. -/
def normalizeShares (raw : Kabco) : Kabco :=
  if raw.sum ≤ 0 then DEFAULT_KABCO_SHARES.div DEFAULT_KABCO_SHARES.sum
  else raw.div raw.sum

/-- Rescale of the k/a/b/c block towards `fi_target`: proportional when
the current block total is positive, otherwise the target is split
equally across the four levels (or zero when the target is zero). -/
def fiBlockRescale (shares : Kabco) (fi_target : ℝ) : Kabco :=
  if 0 < shares.k + shares.a + shares.b + shares.c then
    { shares with
      k := shares.k * (fi_target / (shares.k + shares.a + shares.b + shares.c)),
      a := shares.a * (fi_target / (shares.k + shares.a + shares.b + shares.c)),
      b := shares.b * (fi_target / (shares.k + shares.a + shares.b + shares.c)),
      c := shares.c * (fi_target / (shares.k + shares.a + shares.b + shares.c)) }
  else
    { shares with
      k := if 0 < fi_target then fi_target / 4 else 0,
      a := if 0 < fi_target then fi_target / 4 else 0,
      b := if 0 < fi_target then fi_target / 4 else 0,
      c := if 0 < fi_target then fi_target / 4 else 0 }

/-- Rescale of the `o` entry towards `pdo_target`: proportional when the
current value is positive, otherwise replaced by the target. -/
def pdoRescale (shares : Kabco) (pdo_target : ℝ) : Kabco :=
  if 0 < shares.o then { shares with o := shares.o * (pdo_target / shares.o) }
  else { shares with o := pdo_target }

/-- Final renormalization of `from_row`: divide by the scaled total when
it is positive, otherwise leave the shares untouched. -/
def renormalize (shares : Kabco) : Kabco :=
  if 0 < shares.sum then shares.div shares.sum else shares

/-- Embeds the fi/pdo-override branch of `from_row`: applied only when
both overrides are ≥ 0 and their sum is positive. -/
def applyFiPdoOverride (shares : Kabco) (fi_override pdo_override : ℝ) : Kabco :=
  if 0 ≤ fi_override ∧ 0 ≤ pdo_override then
    if 0 < fi_override + pdo_override then
      renormalize (pdoRescale
        (fiBlockRescale shares (fi_override / (fi_override + pdo_override)))
        (pdo_override / (fi_override + pdo_override)))
    else shares
  else shares

/-- Embeds `SeverityProfile.from_row`. -/
def SeverityProfile.from_row (row : SevRow) : SeverityProfile :=
  let raw : Kabco :=
    ⟨coerceFloat row.k_share DEFAULT_KABCO_SHARES.k,
     coerceFloat row.a_share DEFAULT_KABCO_SHARES.a,
     coerceFloat row.b_share DEFAULT_KABCO_SHARES.b,
     coerceFloat row.c_share DEFAULT_KABCO_SHARES.c,
     coerceFloat row.o_share DEFAULT_KABCO_SHARES.o⟩
  let shares := applyFiPdoOverride (normalizeShares raw)
      (coerceFloat row.fi_share (-1)) (coerceFloat row.pdo_share (-1))
  { facility := normKey row.facility
    area_type := normKey row.area_type
    collision_type := normKey row.collision_type
    kabco_shares := shares
    fi_share := shares.k + shares.a + shares.b + shares.c
    pdo_share := shares.o
    severity_costs :=
      ⟨coerceFloat row.k_cost DEFAULT_SEVERITY_COSTS.k,
       coerceFloat row.a_cost DEFAULT_SEVERITY_COSTS.a,
       coerceFloat row.b_cost DEFAULT_SEVERITY_COSTS.b,
       coerceFloat row.c_cost DEFAULT_SEVERITY_COSTS.c,
       coerceFloat row.o_cost DEFAULT_SEVERITY_COSTS.o⟩ }

/-- Embeds `SeverityProfile.fallback`: the profile built purely from the
normalized default shares and the default costs. -/
def SeverityProfile.fallback
    (facility area_type collision_type : String) : SeverityProfile :=
  let normalized := DEFAULT_KABCO_SHARES.div DEFAULT_KABCO_SHARES.sum
  { facility := facility
    area_type := area_type
    collision_type := collision_type
    kabco_shares := normalized
    fi_share := normalized.k + normalized.a + normalized.b + normalized.c
    pdo_share := normalized.o
    severity_costs := DEFAULT_SEVERITY_COSTS }

/-! ### Share-normalization lemmas -/

lemma Kabco.sum_div (m : Kabco) (t : ℝ) : (m.div t).sum = m.sum / t := by
  simp only [Kabco.div, Kabco.sum]
  ring

lemma DEFAULT_KABCO_SHARES_sum : DEFAULT_KABCO_SHARES.sum = 1 := by
  norm_num [DEFAULT_KABCO_SHARES, Kabco.sum]

lemma normalizeShares_sum (raw : Kabco) : (normalizeShares raw).sum = 1 := by
  rw [normalizeShares]
  split_ifs with h
  · rw [Kabco.sum_div, DEFAULT_KABCO_SHARES_sum]
    norm_num
  · rw [Kabco.sum_div, div_self (ne_of_gt (lt_of_not_le h))]

lemma fiBlockRescale_block_sum (shares : Kabco) (t : ℝ) (ht : 0 ≤ t) :
    (fiBlockRescale shares t).k + (fiBlockRescale shares t).a
      + (fiBlockRescale shares t).b + (fiBlockRescale shares t).c = t := by
  rw [fiBlockRescale]
  split_ifs with h h2
  · have hS : shares.k + shares.a + shares.b + shares.c ≠ 0 := ne_of_gt h
    field_simp
    ring
  · simp only
    ring
  · simp only
    linarith [not_lt.mp h2]

lemma fiBlockRescale_o (shares : Kabco) (t : ℝ) :
    (fiBlockRescale shares t).o = shares.o := by
  rw [fiBlockRescale]
  split_ifs <;> rfl

lemma pdoRescale_o (shares : Kabco) (t : ℝ) : (pdoRescale shares t).o = t := by
  rw [pdoRescale]
  split_ifs with h
  · have ho : shares.o ≠ 0 := ne_of_gt h
    simp only
    field_simp
  · rfl

lemma pdoRescale_block (shares : Kabco) (t : ℝ) :
    (pdoRescale shares t).k = shares.k ∧ (pdoRescale shares t).a = shares.a
      ∧ (pdoRescale shares t).b = shares.b
      ∧ (pdoRescale shares t).c = shares.c := by
  rw [pdoRescale]
  split_ifs <;> exact ⟨rfl, rfl, rfl, rfl⟩

lemma applyFiPdoOverride_sum (shares : Kabco) (fiO pdoO : ℝ)
    (h : shares.sum = 1) : (applyFiPdoOverride shares fiO pdoO).sum = 1 := by
  rw [applyFiPdoOverride]
  split_ifs with h1 h2
  · set s2 := pdoRescale (fiBlockRescale shares (fiO / (fiO + pdoO)))
      (pdoO / (fiO + pdoO)) with hs2
    have hfi : 0 ≤ fiO / (fiO + pdoO) := div_nonneg h1.1 (le_of_lt h2)
    have hsum2 : s2.sum = 1 := by
      have hb := pdoRescale_block
        (fiBlockRescale shares (fiO / (fiO + pdoO))) (pdoO / (fiO + pdoO))
      rw [Kabco.sum, hb.1, hb.2.1, hb.2.2.1, hb.2.2.2, pdoRescale_o,
        fiBlockRescale_block_sum shares _ hfi, div_add_div_same,
        div_self (ne_of_gt h2)]
    rw [renormalize]
    split_ifs with h3
    · rw [Kabco.sum_div, hsum2]
      norm_num
    · exact hsum2
  · exact h
  · exact h

/-- Shares produced by `from_row` always sum to exactly 1 (real
arithmetic). -/
lemma from_row_shares_sum (row : SevRow) :
    (SeverityProfile.from_row row).kabco_shares.sum = 1 := by
  rw [SeverityProfile.from_row]
  exact applyFiPdoOverride_sum _ _ _ (normalizeShares_sum _)

lemma fallback_shares_sum (f a c : String) :
    (SeverityProfile.fallback f a c).kabco_shares.sum = 1 := by
  rw [SeverityProfile.fallback]
  simp only [Kabco.sum_div, DEFAULT_KABCO_SHARES_sum]
  norm_num

/-! ### Non-negativity lemmas -/

lemma normalizeShares_nonneg (raw : Kabco) (h : raw.Nonneg) :
    (normalizeShares raw).Nonneg := by
  rw [normalizeShares]
  split_ifs with hle
  · norm_num [Kabco.Nonneg, Kabco.div, DEFAULT_KABCO_SHARES, Kabco.sum]
  · have hpos : 0 < raw.sum := lt_of_not_le hle
    obtain ⟨h1, h2, h3, h4, h5⟩ := h
    exact ⟨div_nonneg h1 hpos.le, div_nonneg h2 hpos.le,
      div_nonneg h3 hpos.le, div_nonneg h4 hpos.le, div_nonneg h5 hpos.le⟩

lemma fiBlockRescale_nonneg (shares : Kabco) (t : ℝ) (ht : 0 ≤ t)
    (h : shares.Nonneg) : (fiBlockRescale shares t).Nonneg := by
  obtain ⟨h1, h2, h3, h4, h5⟩ := h
  rw [fiBlockRescale]
  split_ifs with hp hq
  · have hd : 0 ≤ t / (shares.k + shares.a + shares.b + shares.c) :=
      div_nonneg ht hp.le
    exact ⟨mul_nonneg h1 hd, mul_nonneg h2 hd, mul_nonneg h3 hd,
      mul_nonneg h4 hd, h5⟩
  · exact ⟨by positivity, by positivity, by positivity, by positivity, h5⟩
  · exact ⟨le_refl 0, le_refl 0, le_refl 0, le_refl 0, h5⟩

lemma pdoRescale_nonneg (shares : Kabco) (t : ℝ) (ht : 0 ≤ t)
    (h : shares.Nonneg) : (pdoRescale shares t).Nonneg := by
  obtain ⟨h1, h2, h3, h4, h5⟩ := h
  rw [pdoRescale]
  split_ifs with hp
  · exact ⟨h1, h2, h3, h4,
      mul_nonneg h5 (div_nonneg ht hp.le)⟩
  · exact ⟨h1, h2, h3, h4, ht⟩

lemma renormalize_nonneg (shares : Kabco) (h : shares.Nonneg) :
    (renormalize shares).Nonneg := by
  obtain ⟨h1, h2, h3, h4, h5⟩ := h
  rw [renormalize]
  split_ifs with hp
  · exact ⟨div_nonneg h1 hp.le, div_nonneg h2 hp.le, div_nonneg h3 hp.le,
      div_nonneg h4 hp.le, div_nonneg h5 hp.le⟩
  · exact ⟨h1, h2, h3, h4, h5⟩

lemma applyFiPdoOverride_nonneg (shares : Kabco) (fiO pdoO : ℝ)
    (h : shares.Nonneg) : (applyFiPdoOverride shares fiO pdoO).Nonneg := by
  rw [applyFiPdoOverride]
  split_ifs with h1 h2
  · exact renormalize_nonneg _ (pdoRescale_nonneg _ _
      (div_nonneg h1.2 h2.le)
      (fiBlockRescale_nonneg _ _ (div_nonneg h1.1 h2.le) h))
  · exact h
  · exact h

/-- Well-formedness of a severity profile as produced by the program:
`fi_share` is the k/a/b/c block, `pdo_share` is the `o` entry, and the
five shares sum to 1. -/
def ProfileWF (p : SeverityProfile) : Prop :=
  p.fi_share = p.kabco_shares.k + p.kabco_shares.a + p.kabco_shares.b
      + p.kabco_shares.c
  ∧ p.pdo_share = p.kabco_shares.o
  ∧ p.kabco_shares.sum = 1

lemma from_row_wf (row : SevRow) : ProfileWF (SeverityProfile.from_row row) :=
  ⟨rfl, rfl, from_row_shares_sum row⟩

lemma fallback_wf (f a c : String) :
    ProfileWF (SeverityProfile.fallback f a c) :=
  ⟨rfl, rfl, fallback_shares_sum f a c⟩

lemma fallback_fi_pdo (f a c : String) :
    (SeverityProfile.fallback f a c).fi_share = 0.40 ∧
    (SeverityProfile.fallback f a c).pdo_share = 0.60 := by
  constructor <;>
    norm_num [SeverityProfile.fallback, Kabco.div, DEFAULT_KABCO_SHARES,
      Kabco.sum]

/-! ### C4: shares of a resolved severity profile -/

/-- C4 counterexample: the loader accepts a row whose `k_share` field is
the (parseable) value `-0.5`; the raw share total `0.48` is positive, so
the negative share survives normalization and the resulting profile has a
negative `k` share — the claim that every accepted row yields only
non-negative shares is false. -/
theorem severity_negative_share_cex :
    (SeverityProfile.from_row { k_share := Cell.num (-0.5) }).kabco_shares.k
      < 0 := by
  norm_num [SeverityProfile.from_row, normalizeShares, applyFiPdoOverride,
    coerceFloat, Kabco.sum, Kabco.div, DEFAULT_KABCO_SHARES]

/-- C4 (amended): for every severity row accepted by the loader the five
KABCO shares of the resulting profile sum to exactly 1.0 (hence within
1e-9); they are moreover all ≥ 0 whenever the coerced share values of the
row are non-negative (which holds in particular when share fields are
missing or malformed, since the defaults are non-negative); the built-in
fallback profile unconditionally has non-negative shares summing to 1.0. -/
theorem severity_profile_shares_invariant (row : SevRow) :
    (SeverityProfile.from_row row).kabco_shares.sum = 1 ∧
    (Kabco.Nonneg
        ⟨coerceFloat row.k_share DEFAULT_KABCO_SHARES.k,
         coerceFloat row.a_share DEFAULT_KABCO_SHARES.a,
         coerceFloat row.b_share DEFAULT_KABCO_SHARES.b,
         coerceFloat row.c_share DEFAULT_KABCO_SHARES.c,
         coerceFloat row.o_share DEFAULT_KABCO_SHARES.o⟩ →
      Kabco.Nonneg (SeverityProfile.from_row row).kabco_shares) ∧
    ∀ f a c : String,
      (SeverityProfile.fallback f a c).kabco_shares.sum = 1 ∧
      Kabco.Nonneg (SeverityProfile.fallback f a c).kabco_shares := by
  refine ⟨from_row_shares_sum row, ?_, ?_⟩
  · intro h
    simp only [SeverityProfile.from_row]
    exact applyFiPdoOverride_nonneg _ _ _ (normalizeShares_nonneg _ h)
  · intro f a c
    refine ⟨fallback_shares_sum f a c, ?_⟩
    norm_num [SeverityProfile.fallback, Kabco.div, DEFAULT_KABCO_SHARES,
      Kabco.Nonneg, Kabco.sum]

/-- Witness for C4 (amended) at the all-defaults row. -/
theorem severity_profile_shares_invariant_witness :
    Kabco.Nonneg
      ⟨coerceFloat (({} : SevRow).k_share) DEFAULT_KABCO_SHARES.k,
       coerceFloat (({} : SevRow).a_share) DEFAULT_KABCO_SHARES.a,
       coerceFloat (({} : SevRow).b_share) DEFAULT_KABCO_SHARES.b,
       coerceFloat (({} : SevRow).c_share) DEFAULT_KABCO_SHARES.c,
       coerceFloat (({} : SevRow).o_share) DEFAULT_KABCO_SHARES.o⟩ ∧
    (SeverityProfile.from_row {}).kabco_shares.sum = 1 ∧
    Kabco.Nonneg (SeverityProfile.from_row {}).kabco_shares := by
  have hn : Kabco.Nonneg
      ⟨coerceFloat (({} : SevRow).k_share) DEFAULT_KABCO_SHARES.k,
       coerceFloat (({} : SevRow).a_share) DEFAULT_KABCO_SHARES.a,
       coerceFloat (({} : SevRow).b_share) DEFAULT_KABCO_SHARES.b,
       coerceFloat (({} : SevRow).c_share) DEFAULT_KABCO_SHARES.c,
       coerceFloat (({} : SevRow).o_share) DEFAULT_KABCO_SHARES.o⟩ := by
    norm_num [coerceFloat, Kabco.Nonneg, DEFAULT_KABCO_SHARES]
  exact ⟨hn, (severity_profile_shares_invariant {}).1,
    (severity_profile_shares_invariant {}).2.1 hn⟩

/-! ## Loader (`FreewaySpf.from_files`) -/

/-- A coefficient CSV row as seen by the loader loop of `from_files`;
absent columns default to `Cell.missing`. -/
structure CoefRow where
  facility : String := ""
  area_type : String := ""
  collision_type : String := ""
  intercept : Cell := Cell.missing
  aadt_exponent : Cell := Cell.missing
  length_exponent : Cell := Cell.missing
  lanes_exponent : Cell := Cell.missing

/-- Embeds the construction of one `SpfCoefficient` inside the loader
loop: `intercept`, `aadt_exponent` and `length_exponent` are required
(`float(row[...])`), while `lanes_exponent` goes through
`float(row.get("lanes_exponent", 0.0) or 0.0)`. -/
def parseCoefRow (row : CoefRow) : Option SpfCoefficient :=
  match reqFloat row.intercept, reqFloat row.aadt_exponent,
      reqFloat row.length_exponent, lanesFloat row.lanes_exponent with
  | some i, some a, some l, some n =>
      some { facility := normKey row.facility
             area_type := normKey row.area_type
             collision_type := normKey row.collision_type
             intercept := i
             aadt_exponent := a
             length_exponent := l
             lanes_exponent := n }
  | _, _, _, _ => none

/-- Embeds the coefficient loop of `from_files`: the first failing row
aborts the whole load (the raised exception discards the partial list). -/
def loadCoefficients : List CoefRow → Option (List SpfCoefficient)
  | [] => some []
  | row :: rest =>
      match parseCoefRow row, loadCoefficients rest with
      | some c, some cs => some (c :: cs)
      | _, _ => none

/-- Embeds the severity loop of `from_files`; `from_row` is total, so the
severity load never fails. -/
def loadSeverity (rows : List SevRow) : List SeverityProfile :=
  rows.map SeverityProfile.from_row

/-- Embeds the `FreewaySpf` model object. -/
structure FreewaySpf where
  coefficients : List SpfCoefficient
  severity_profiles : List SeverityProfile
  config : HsmConfig

/-- Embeds `FreewaySpf.from_files`. -/
def FreewaySpf.from_files (coefRows : List CoefRow) (sevRows : List SevRow)
    (config : HsmConfig) : Option FreewaySpf :=
  match loadCoefficients coefRows with
  | some coefs => some ⟨coefs, loadSeverity sevRows, config⟩
  | none => none

lemma parseCoefRow_none_iff (r : CoefRow) :
    parseCoefRow r = none ↔ reqFloat r.intercept = none
      ∨ reqFloat r.aadt_exponent = none
      ∨ reqFloat r.length_exponent = none
      ∨ lanesFloat r.lanes_exponent = none := by
  rw [parseCoefRow]
  cases h1 : reqFloat r.intercept <;>
    cases h2 : reqFloat r.aadt_exponent <;>
      cases h3 : reqFloat r.length_exponent <;>
        cases h4 : lanesFloat r.lanes_exponent <;> simp

lemma loadCoefficients_none_of_mem (rows : List CoefRow) (r : CoefRow)
    (hmem : r ∈ rows) (hr : parseCoefRow r = none) :
    loadCoefficients rows = none := by
  induction rows with
  | nil => cases hmem
  | cons head rest ih =>
    rw [loadCoefficients]
    rcases List.mem_cons.mp hmem with h | h
    · subst h
      rw [hr]
    · rw [ih h]
      cases parseCoefRow head <;> rfl

lemma loadCoefficients_isSome (rows : List CoefRow)
    (h : ∀ r ∈ rows, (parseCoefRow r).isSome) :
    (loadCoefficients rows).isSome := by
  induction rows with
  | nil => rfl
  | cons head rest ih =>
    rw [loadCoefficients]
    have h1 := h head (List.mem_cons_self head rest)
    have h2 := ih (fun r hr => h r (List.mem_cons_of_mem head hr))
    cases hh : parseCoefRow head
    · rw [hh] at h1
      simp at h1
    · cases hr : loadCoefficients rest
      · rw [hr] at h2
        simp at h2
      · rfl

/-! ### C5: parse errors at load time -/

/-- C5 counterexample: a load whose severity table contains a malformed
numeric field (`k_share`) succeeds instead of failing —
`_coerce_float` silently replaces the malformed value with the default,
so the claim that a malformed numeric field in a severity row fails the
load is false. -/
theorem malformed_severity_loads_cex :
    (FreewaySpf.from_files [] [{ k_share := Cell.malformed }] {}).isSome
      = true := rfl

/-- C5 (amended): a malformed value in a required numeric field of a
coefficient row (or in `lanes_exponent` when non-empty) fails the whole
load and no partial table is returned, while malformed numeric fields in
severity rows are silently coerced to their defaults: whenever every
coefficient row parses, the load succeeds for every severity table — in
particular the load never fails because a facility/area/collision-type
combination is absent. -/
theorem load_parse_error_policy :
    (∀ (crows : List CoefRow) (srows : List SevRow) (cfg : HsmConfig)
        (r : CoefRow), r ∈ crows →
        (r.intercept = Cell.malformed ∨ r.aadt_exponent = Cell.malformed
          ∨ r.length_exponent = Cell.malformed
          ∨ r.lanes_exponent = Cell.malformed) →
        FreewaySpf.from_files crows srows cfg = none) ∧
    (∀ (crows : List CoefRow) (srows : List SevRow) (cfg : HsmConfig),
        (∀ r ∈ crows, (parseCoefRow r).isSome) →
        (FreewaySpf.from_files crows srows cfg).isSome) := by
  constructor
  · intro crows srows cfg r hmem hbad
    have hnone : parseCoefRow r = none := by
      rw [parseCoefRow_none_iff]
      rcases hbad with h | h | h | h
      · exact Or.inl (by rw [h]; rfl)
      · exact Or.inr (Or.inl (by rw [h]; rfl))
      · exact Or.inr (Or.inr (Or.inl (by rw [h]; rfl)))
      · exact Or.inr (Or.inr (Or.inr (by rw [h]; rfl)))
    rw [FreewaySpf.from_files, loadCoefficients_none_of_mem crows r hmem hnone]
  · intro crows srows cfg h
    have := loadCoefficients_isSome crows h
    rw [FreewaySpf.from_files]
    cases hload : loadCoefficients crows
    · rw [hload] at this
      simp at this
    · rfl

/-- Witness for C5 (amended): a malformed `intercept` kills the load; a
well-formed coefficient table loads together with a malformed severity
row. -/
theorem load_parse_error_policy_witness :
    (({ intercept := Cell.malformed } : CoefRow)
        ∈ [({ intercept := Cell.malformed } : CoefRow)]) ∧
    FreewaySpf.from_files [{ intercept := Cell.malformed }] [] {} = none ∧
    (FreewaySpf.from_files
      [{ intercept := Cell.num 1, aadt_exponent := Cell.num 1,
         length_exponent := Cell.num 1 }]
      [{ k_share := Cell.malformed }] {}).isSome := by
  refine ⟨List.mem_singleton_self _,
    load_parse_error_policy.1 _ _ _ _ (List.mem_singleton_self _)
      (Or.inl rfl),
    load_parse_error_policy.2 _ _ _ ?_⟩
  intro r hr
  rw [List.mem_singleton] at hr
  subst hr
  rfl

/-! ### C9: the only optional numeric coefficient column -/

/-- C9: a missing or empty `lanes_exponent` cell is silently coerced to
`0.0` and the row still parses (given the required fields parse), whereas
a missing `intercept`, `aadt_exponent` or `length_exponent` cell makes
the row fail to parse, and any failing row makes the whole load fail. -/
theorem lanes_exponent_optional (row : CoefRow) (i a l : ℝ)
    (hi : row.intercept = Cell.num i)
    (ha : row.aadt_exponent = Cell.num a)
    (hl : row.length_exponent = Cell.num l) :
    ((row.lanes_exponent = Cell.missing ∨ row.lanes_exponent = Cell.empty) →
      parseCoefRow row = some
        { facility := normKey row.facility
          area_type := normKey row.area_type
          collision_type := normKey row.collision_type
          intercept := i
          aadt_exponent := a
          length_exponent := l
          lanes_exponent := 0 }) ∧
    (∀ r : CoefRow,
      (r.intercept = Cell.missing ∨ r.aadt_exponent = Cell.missing
        ∨ r.length_exponent = Cell.missing) → parseCoefRow r = none) ∧
    (∀ rows : List CoefRow, ∀ r ∈ rows, parseCoefRow r = none →
      loadCoefficients rows = none) := by
  refine ⟨?_, ?_, ?_⟩
  · intro hopt
    rcases hopt with h | h <;>
      rw [parseCoefRow, hi, ha, hl, h] <;> rfl
  · intro r hd
    rw [parseCoefRow_none_iff]
    rcases hd with h | h | h
    · exact Or.inl (by rw [h]; rfl)
    · exact Or.inr (Or.inl (by rw [h]; rfl))
    · exact Or.inr (Or.inr (Or.inl (by rw [h]; rfl)))
  · intro rows r hmem hr
    exact loadCoefficients_none_of_mem rows r hmem hr

/-- Witness for C9 at concrete rows. -/
theorem lanes_exponent_optional_witness :
    ({ intercept := Cell.num 2, aadt_exponent := Cell.num 3,
       length_exponent := Cell.num 5 } : CoefRow).intercept = Cell.num 2 ∧
    parseCoefRow ({ intercept := Cell.num 2, aadt_exponent := Cell.num 3,
                    length_exponent := Cell.num 5 } : CoefRow) = some
      { facility := normKey ""
        area_type := normKey ""
        collision_type := normKey ""
        intercept := 2
        aadt_exponent := 3
        length_exponent := 5
        lanes_exponent := 0 } ∧
    parseCoefRow ({} : CoefRow) = none := by
  have h := lanes_exponent_optional
    ({ intercept := Cell.num 2, aadt_exponent := Cell.num 3,
       length_exponent := Cell.num 5 } : CoefRow) 2 3 5 rfl rfl rfl
  exact ⟨rfl, h.1 (Or.inl rfl), h.2.1 {} (Or.inl rfl)⟩

/-! ## Prediction (`FreewaySpf.predict`) -/

/-- One step of the dict comprehension in `_select_coefficients`: a
Python dict keeps first-insertion key order and the value written last,
so a repeated collision-type key overwrites the stored record and a new
key is appended. -/
def insertSelected (acc : List (String × SpfCoefficient))
    (c : SpfCoefficient) : List (String × SpfCoefficient) :=
  if acc.any (fun p => decide (p.1 = c.collision_type)) then
    acc.map (fun p => if p.1 = c.collision_type then (p.1, c) else p)
  else acc ++ [(c.collision_type, c)]

/-- Embeds `FreewaySpf._select_coefficients`: the dict comprehension over
all loaded coefficients whose facility and area type match. -/
def selectCoefficients (coefs : List SpfCoefficient)
    (facility area_type : String) : List (String × SpfCoefficient) :=
  (coefs.filter (fun c =>
    decide (c.facility = facility ∧ c.area_type = area_type))).foldl
      insertSelected []

/-- Embeds `FreewaySpf._severity_profile`: first matching profile, else
the fallback. -/
def FreewaySpf.severityProfileFor (m : FreewaySpf)
    (facility area_type collision_type : String) : SeverityProfile :=
  match m.severity_profiles.find? (fun p =>
      decide (p.facility = facility ∧ p.area_type = area_type
        ∧ p.collision_type = collision_type)) with
  | some p => p
  | none => SeverityProfile.fallback facility area_type collision_type

/-- Entry-wise scaling (`calibrated * share` over the five levels). -/
def Kabco.smul (t : ℝ) (m : Kabco) : Kabco :=
  ⟨t * m.k, t * m.a, t * m.b, t * m.c, t * m.o⟩

/-- Entry-wise product (`expected * cost` over the five levels). -/
def Kabco.mul (m n : Kabco) : Kabco :=
  ⟨m.k * n.k, m.a * n.a, m.b * n.b, m.c * n.c, m.o * n.o⟩

/-- The per-collision-type summary dict of `predict`
(`fi`, `pdo`, `total`, `kabco`, `economic_loss`). -/
structure CollisionSummary where
  fi : ℝ
  pdo : ℝ
  total : ℝ
  kabco : Kabco
  loss_by_severity : Kabco
  loss_total : ℝ

/-- Embeds `_empty_summary()`. -/
def CollisionSummary.empty : CollisionSummary :=
  ⟨0, 0, 0, Kabco.zero, Kabco.zero, 0⟩

/-- Component-wise accumulation of two summaries (the `+=` statements of
the inner loop of `predict`). -/
def CollisionSummary.add (x y : CollisionSummary) : CollisionSummary :=
  ⟨x.fi + y.fi, x.pdo + y.pdo, x.total + y.total, x.kabco.add y.kabco,
   x.loss_by_severity.add y.loss_by_severity, x.loss_total + y.loss_total⟩

/-- Embeds the body of the inner loop of `predict` for one direction and
one collision type: the calibrated count split by the severity profile. -/
def dirContribution (cfg : HsmConfig) (coef : SpfCoefficient)
    (profile : SeverityProfile) (collision : String)
    (d : DirectionalInput) : CollisionSummary :=
  let calibrated := calibratedCount cfg coef collision d
  let expected := Kabco.smul calibrated profile.kabco_shares
  let losses := Kabco.mul expected profile.severity_costs
  { fi := calibrated * profile.fi_share
    pdo := calibrated * profile.pdo_share
    total := calibrated
    kabco := expected
    loss_by_severity := losses
    loss_total := losses.sum }

/-- Accumulation of one collision type over all directions. -/
def collisionSummaryFor (cfg : HsmConfig) (coef : SpfCoefficient)
    (profile : SeverityProfile) (collision : String)
    (dirs : List DirectionalInput) : CollisionSummary :=
  dirs.foldl (fun acc d => acc.add (dirContribution cfg coef profile collision d))
    CollisionSummary.empty

/-- Embeds the `PredictionResult` mapping returned by `predict`:
per-collision-type summaries plus the run-level aggregates. -/
structure PredictionResult where
  per_collision : List (String × CollisionSummary)
  total_all_sev : ℝ
  total_fi : ℝ
  total_pdo : ℝ
  severity_breakdown : Kabco
  loss_by_severity : Kabco
  loss_total : ℝ
  k_overdispersion : ℝ
  calibration_C : ℝ

/-- Embeds `FreewaySpf.predict`.  Accumulation is regrouped per collision
type and per level, which agrees with the nested `+=` loops of the source
because real addition is associative and commutative. -/
def FreewaySpf.predict (m : FreewaySpf) (facility area_type : String)
    (dirs : List DirectionalInput) : Option PredictionResult :=
  let fac := facility.toLower
  let area := area_type.toLower
  let selected := selectCoefficients m.coefficients fac area
  if selected.isEmpty then none
  else
    let mean_length :=
      if dirs.isEmpty then 0
      else (dirs.map (fun d => d.segment_length_miles)).sum / (dirs.length : ℝ)
    let k_value := m.config.overdispersion.k_for_length mean_length
    let per_collision := selected.map (fun p =>
      (p.1, collisionSummaryFor m.config p.2
        (m.severityProfileFor fac area p.1) p.1 dirs))
    let breakdown :=
      (per_collision.map (fun p => p.2.kabco)).foldl Kabco.add Kabco.zero
    let cost_breakdown :=
      (per_collision.map (fun p => p.2.loss_by_severity)).foldl
        Kabco.add Kabco.zero
    some
      { per_collision := per_collision
        total_all_sev := (per_collision.map (fun p => p.2.total)).sum
        total_fi := breakdown.k + breakdown.a + breakdown.b + breakdown.c
        total_pdo := breakdown.o
        severity_breakdown := breakdown
        loss_by_severity := cost_breakdown
        loss_total := cost_breakdown.sum
        k_overdispersion := k_value
        calibration_C := m.config.calibration_factor }

/-! ### C3: missing-coefficients error -/

lemma insertSelected_ne_nil (acc : List (String × SpfCoefficient))
    (c : SpfCoefficient) : insertSelected acc c ≠ [] := by
  rw [insertSelected]
  split_ifs with h
  · cases acc with
    | nil => simp at h
    | cons p rest => simp
  · simp

lemma foldl_insertSelected_ne_nil (l : List SpfCoefficient)
    (acc : List (String × SpfCoefficient)) (hacc : acc ≠ []) :
    l.foldl insertSelected acc ≠ [] := by
  induction l generalizing acc with
  | nil => exact hacc
  | cons c rest ih => exact ih _ (insertSelected_ne_nil acc c)

lemma selectCoefficients_eq_nil_iff (coefs : List SpfCoefficient)
    (fac area : String) :
    selectCoefficients coefs fac area = [] ↔
      ∀ c ∈ coefs, ¬(c.facility = fac ∧ c.area_type = area) := by
  rw [selectCoefficients]
  rw [show (∀ c ∈ coefs, ¬(c.facility = fac ∧ c.area_type = area)) ↔
      coefs.filter (fun c =>
        decide (c.facility = fac ∧ c.area_type = area)) = [] by
    rw [List.filter_eq_nil_iff]
    simp]
  cases hf : coefs.filter (fun c =>
      decide (c.facility = fac ∧ c.area_type = area)) with
  | nil => simp
  | cons c rest =>
    simp only [List.foldl_cons]
    constructor
    · intro h
      exact absurd h
        (foldl_insertSelected_ne_nil rest _ (insertSelected_ne_nil [] c))
    · intro h
      cases h

/-- C3: `predict` fails with the missing-coefficients error — returning
no result at all — precisely when no loaded coefficient record matches
the lower-cased facility and area type; whenever at least one record
matches, the call does not raise that error and returns a result. -/
theorem predict_missing_coefficients (m : FreewaySpf)
    (facility area_type : String) (dirs : List DirectionalInput) :
    m.predict facility area_type dirs = none ↔
      ∀ c ∈ m.coefficients,
        ¬(c.facility = facility.toLower
          ∧ c.area_type = area_type.toLower) := by
  rw [FreewaySpf.predict]
  simp only
  split_ifs with h
  · simp only [List.isEmpty_iff] at h
    simp only [true_iff, eq_self_iff_true]
    exact (selectCoefficients_eq_nil_iff _ _ _).mp h
  · simp only [List.isEmpty_iff] at h
    constructor
    · intro hc
      cases hc
    · intro hall
      exact absurd ((selectCoefficients_eq_nil_iff _ _ _).mpr hall) h

/-! ### C10: duplicate coefficient keys -/

lemma dictGet_map_overwrite (acc : List (String × SpfCoefficient))
    (ct : String) (c : SpfCoefficient) (key : String) (hne : ct ≠ key) :
    dictGet (acc.map (fun p => if p.1 = ct then (p.1, c) else p)) key
      = dictGet acc key := by
  induction acc with
  | nil => rfl
  | cons p rest ih =>
    by_cases hp : p.1 = ct
    · have hk : ¬p.1 = key := fun hk => hne (hp.symm.trans hk)
      simp only [List.map_cons, dictGet, if_pos hp, if_neg hk, ih]
    · simp only [List.map_cons, dictGet, if_neg hp]
      by_cases hk : p.1 = key
      · rw [if_pos hk, if_pos hk]
      · rw [if_neg hk, if_neg hk, ih]

lemma dictGet_map_overwrite_self (acc : List (String × SpfCoefficient))
    (ct : String) (c : SpfCoefficient) (hmem : ∃ p ∈ acc, p.1 = ct) :
    dictGet (acc.map (fun p => if p.1 = ct then (p.1, c) else p)) ct
      = some c := by
  induction acc with
  | nil =>
    obtain ⟨p, hp, _⟩ := hmem
    cases hp
  | cons p rest ih =>
    by_cases hp : p.1 = ct
    · simp only [List.map_cons, dictGet, if_pos hp]
    · have hrest : ∃ q ∈ rest, q.1 = ct := by
        obtain ⟨q, hq, hq2⟩ := hmem
        rcases List.mem_cons.mp hq with h | h
        · subst h
          exact absurd hq2 hp
        · exact ⟨q, h, hq2⟩
      simp only [List.map_cons, dictGet, if_neg hp]
      exact ih hrest

lemma dictGet_append_singleton (acc : List (String × SpfCoefficient))
    (ct : String) (c : SpfCoefficient) (key : String)
    (h : ∀ p ∈ acc, p.1 ≠ ct) :
    dictGet (acc ++ [(ct, c)]) key =
      if ct = key then some c else dictGet acc key := by
  induction acc with
  | nil => rfl
  | cons p rest ih =>
    have hp : p.1 ≠ ct := h p (List.mem_cons_self p rest)
    have ih2 := ih (fun q hq => h q (List.mem_cons_of_mem p hq))
    simp only [List.cons_append, dictGet, List.append_eq] at ih2 ⊢
    by_cases hk : p.1 = key
    · have hck : ¬ct = key := fun hck => hp (hk.trans hck.symm)
      simp only [if_pos hk, if_neg hck]
    · simp only [if_neg hk]
      exact ih2

lemma dictGet_insertSelected (acc : List (String × SpfCoefficient))
    (c : SpfCoefficient) (key : String) :
    dictGet (insertSelected acc c) key =
      if c.collision_type = key then some c else dictGet acc key := by
  rw [insertSelected]
  split_ifs with hany hct hct2
  · subst hct
    apply dictGet_map_overwrite_self
    simpa using hany
  · exact dictGet_map_overwrite acc _ c key hct
  · have hall : ∀ p ∈ acc, p.1 ≠ c.collision_type := by
      intro p hp he
      exact hany (List.any_eq_true.mpr ⟨p, hp, by simpa using he⟩)
    rw [dictGet_append_singleton acc _ c key hall, if_pos hct2]
  · have hall : ∀ p ∈ acc, p.1 ≠ c.collision_type := by
      intro p hp he
      exact hany (List.any_eq_true.mpr ⟨p, hp, by simpa using he⟩)
    rw [dictGet_append_singleton acc _ c key hall, if_neg hct2]

lemma dictGet_foldl_insertSelected (l : List SpfCoefficient) (key : String) :
    dictGet (l.foldl insertSelected []) key =
      (l.filter (fun c => decide (c.collision_type = key))).getLast? := by
  induction l using List.reverseRecOn with
  | nil => rfl
  | append_singleton l c ih =>
    rw [List.foldl_append, List.foldl_cons, List.foldl_nil,
      dictGet_insertSelected, List.filter_append]
    by_cases h : c.collision_type = key
    · rw [if_pos h]
      simp [h]
    · rw [if_neg h, ih]
      simp [h]

/-- C10: the selection dict built by `_select_coefficients` — the table
`predict` draws its per-collision-type coefficients from — holds, for
every collision-type key, exactly the matching record that appears last
in load order; earlier duplicates are overwritten and contribute
nothing. -/
theorem duplicate_coefficients_last_wins (coefs : List SpfCoefficient)
    (fac area key : String) :
    dictGet (selectCoefficients coefs fac area) key =
      (coefs.filter (fun c => decide (c.facility = fac ∧ c.area_type = area
        ∧ c.collision_type = key))).getLast? := by
  rw [selectCoefficients, dictGet_foldl_insertSelected, List.filter_filter]
  congr 1
  apply List.filter_congr
  intro c hc
  by_cases h1 : c.facility = fac <;> by_cases h2 : c.area_type = area <;>
    by_cases h3 : c.collision_type = key <;> simp [h1, h2, h3]

/-! ### C6: missing severity profile falls back silently -/

/-- C6: severity resolution is total — when no severity row matches the
facility/area/collision triple it silently returns the built-in fallback
profile, whose fi share is exactly 0.40 and pdo share exactly 0.60. -/
theorem missing_severity_profile_fallback (m : FreewaySpf)
    (facility area_type collision_type : String)
    (h : ∀ p ∈ m.severity_profiles,
      ¬(p.facility = facility ∧ p.area_type = area_type
        ∧ p.collision_type = collision_type)) :
    m.severityProfileFor facility area_type collision_type =
      SeverityProfile.fallback facility area_type collision_type ∧
    (m.severityProfileFor facility area_type collision_type).fi_share
      = 0.40 ∧
    (m.severityProfileFor facility area_type collision_type).pdo_share
      = 0.60 := by
  have hfind : m.severity_profiles.find? (fun p =>
      decide (p.facility = facility ∧ p.area_type = area_type
        ∧ p.collision_type = collision_type)) = none := by
    rw [List.find?_eq_none]
    intro p hp
    simpa using h p hp
  have heq : m.severityProfileFor facility area_type collision_type =
      SeverityProfile.fallback facility area_type collision_type := by
    rw [FreewaySpf.severityProfileFor, hfind]
  exact ⟨heq, heq ▸ (fallback_fi_pdo _ _ _).1, heq ▸ (fallback_fi_pdo _ _ _).2⟩

/-- Witness for C6: a model with an empty severity table. -/
theorem missing_severity_profile_fallback_witness :
    (⟨[], [], {}⟩ : FreewaySpf).severityProfileFor "freeway" "urban" "sv"
        = SeverityProfile.fallback "freeway" "urban" "sv" ∧
    ((⟨[], [], {}⟩ : FreewaySpf).severityProfileFor
        "freeway" "urban" "sv").fi_share = 0.40 ∧
    ((⟨[], [], {}⟩ : FreewaySpf).severityProfileFor
        "freeway" "urban" "sv").pdo_share = 0.60 :=
  missing_severity_profile_fallback ⟨[], [], {}⟩ "freeway" "urban" "sv"
    (by simp)

/-! ### C7: coherence of totals -/

/-- The three per-collision coherence equations of the spec. -/
def SummaryCoherent (s : CollisionSummary) : Prop :=
  s.fi + s.pdo = s.total ∧ s.kabco.sum = s.total
    ∧ s.loss_by_severity.sum = s.loss_total

lemma empty_coherent : SummaryCoherent CollisionSummary.empty := by
  refine ⟨?_, ?_, ?_⟩ <;>
    norm_num [CollisionSummary.empty, Kabco.zero, Kabco.sum]

lemma add_coherent {x y : CollisionSummary} (hx : SummaryCoherent x)
    (hy : SummaryCoherent y) : SummaryCoherent (x.add y) := by
  obtain ⟨hx1, hx2, hx3⟩ := hx
  obtain ⟨hy1, hy2, hy3⟩ := hy
  simp only [SummaryCoherent, CollisionSummary.add, Kabco.add, Kabco.sum] at *
  refine ⟨by linarith, by linarith, by linarith⟩

lemma Kabco.sum_smul (t : ℝ) (m : Kabco) :
    (Kabco.smul t m).sum = t * m.sum := by
  simp only [Kabco.smul, Kabco.sum]
  ring

lemma dirContribution_coherent (cfg : HsmConfig) (coef : SpfCoefficient)
    {profile : SeverityProfile} (hwf : ProfileWF profile)
    (collision : String) (d : DirectionalInput) :
    SummaryCoherent (dirContribution cfg coef profile collision d) := by
  obtain ⟨h1, h2, h3⟩ := hwf
  refine ⟨?_, ?_, rfl⟩
  · simp only [dirContribution, h1, h2]
    have h4 := h3
    rw [Kabco.sum] at h4
    linear_combination (calibratedCount cfg coef collision d) * h4
  · simp only [dirContribution, Kabco.sum_smul, h3, mul_one]

lemma collisionSummaryFor_coherent (cfg : HsmConfig) (coef : SpfCoefficient)
    {profile : SeverityProfile} (hwf : ProfileWF profile)
    (collision : String) (dirs : List DirectionalInput) :
    SummaryCoherent (collisionSummaryFor cfg coef profile collision dirs) := by
  rw [collisionSummaryFor]
  have main : ∀ acc, SummaryCoherent acc →
      SummaryCoherent (dirs.foldl
        (fun a d => a.add (dirContribution cfg coef profile collision d))
        acc) := by
    induction dirs with
    | nil => exact fun acc ha => ha
    | cons d rest ih =>
      intro acc ha
      exact ih _ (add_coherent ha
        (dirContribution_coherent cfg coef hwf collision d))
  exact main _ empty_coherent

lemma severityProfileFor_wf (m : FreewaySpf)
    (hwf : ∀ p ∈ m.severity_profiles, ProfileWF p) (f a c : String) :
    ProfileWF (m.severityProfileFor f a c) := by
  cases hfind : m.severity_profiles.find? (fun p =>
      decide (p.facility = f ∧ p.area_type = a ∧ p.collision_type = c)) with
  | none =>
    rw [FreewaySpf.severityProfileFor, hfind]
    exact fallback_wf f a c
  | some p =>
    rw [FreewaySpf.severityProfileFor, hfind]
    exact hwf p (List.mem_of_find?_eq_some hfind)

/-- C7: in every prediction result of a model whose severity profiles
are well-formed (as every profile produced by `from_row` or `fallback`
is, see `from_row_wf` and `fallback_wf`): per collision type
fi + pdo = total, the five kabco entries sum to total and the five
per-severity losses sum to the per-collision loss total; at run level
the five per-severity losses sum to the run-level loss total.  All
equalities are exact in real arithmetic, hence hold within any
floating-point tolerance. -/
lemma mapped_summary_coherent (m : FreewaySpf)
    (hwf : ∀ p ∈ m.severity_profiles, ProfileWF p) (fac area : String)
    (dirs : List DirectionalInput) (pc : String × CollisionSummary)
    (hpc : pc ∈ (selectCoefficients m.coefficients fac area).map (fun p =>
      (p.1, collisionSummaryFor m.config p.2
        (m.severityProfileFor fac area p.1) p.1 dirs))) :
    pc.2.fi + pc.2.pdo = pc.2.total ∧ pc.2.kabco.sum = pc.2.total ∧
      pc.2.loss_by_severity.sum = pc.2.loss_total := by
  obtain ⟨p, hp, hpc2⟩ := List.mem_map.mp hpc
  rw [← hpc2]
  exact collisionSummaryFor_coherent m.config p.2
    (severityProfileFor_wf m hwf _ _ p.1) p.1 dirs

theorem prediction_totals_coherent (m : FreewaySpf)
    (hwf : ∀ p ∈ m.severity_profiles, ProfileWF p)
    (facility area_type : String) (dirs : List DirectionalInput)
    (res : PredictionResult)
    (hres : m.predict facility area_type dirs = some res) :
    (∀ row : SevRow, ProfileWF (SeverityProfile.from_row row)) ∧
    (∀ f a c : String, ProfileWF (SeverityProfile.fallback f a c)) ∧
    (∀ pc ∈ res.per_collision,
      pc.2.fi + pc.2.pdo = pc.2.total ∧ pc.2.kabco.sum = pc.2.total ∧
        pc.2.loss_by_severity.sum = pc.2.loss_total) ∧
    res.loss_by_severity.sum = res.loss_total := by
  refine ⟨from_row_wf, fallback_wf, ?_⟩
  rw [FreewaySpf.predict] at hres
  simp only at hres
  split_ifs at hres with hsel hd
  · obtain rfl := (Option.some.inj hres).symm
    constructor
    · intro pc hpc
      exact mapped_summary_coherent m hwf facility.toLower area_type.toLower
        dirs pc hpc
    · rfl
  · obtain rfl := (Option.some.inj hres).symm
    constructor
    · intro pc hpc
      exact mapped_summary_coherent m hwf facility.toLower area_type.toLower
        dirs pc hpc
    · rfl

/-- Concrete loaded model for the C7 witness; keys are written through
`toLower` so that selection matches without computing string functions. -/
def coherenceModel : FreewaySpf :=
  ⟨[⟨"f".toLower, "u".toLower, "sv", 0, 1, 0, 0⟩], [], {}⟩

lemma coherenceModel_isSome :
    (coherenceModel.predict "f" "u" [⟨2, 1, 1000⟩]).isSome = true := by
  rw [FreewaySpf.predict]
  simp only
  split_ifs with h hd
  · exfalso
    rw [List.isEmpty_iff] at h
    exact (selectCoefficients_eq_nil_iff _ _ _).mp h
      ⟨"f".toLower, "u".toLower, "sv", 0, 1, 0, 0⟩
      (by simp [coherenceModel]) ⟨rfl, rfl⟩
  · rfl
  · rfl

/-- Concrete prediction result for the C7 witness. -/
def coherenceResult : PredictionResult :=
  (coherenceModel.predict "f" "u" [⟨2, 1, 1000⟩]).get coherenceModel_isSome

/-- Witness for C7 at a concrete model and one direction. -/
theorem prediction_totals_coherent_witness :
    coherenceResult.loss_by_severity.sum = coherenceResult.loss_total :=
  (prediction_totals_coherent coherenceModel (by simp [coherenceModel])
    "f" "u" [⟨2, 1, 1000⟩] coherenceResult
    (Option.some_get coherenceModel_isSome).symm).2.2.2

end HighdHsm
